import Mathlib

/-!
Verification development for the PocketRelay game-server backend.

Each Rust function relevant to the verified claims is shallowly embedded as
an executable Lean definition, translated directly from the source files:

- `src/src/blaze/shared.rs` (`NetAddress`),
- `src/src/game/mod.rs` (`Game` and its `GameModifyAction` processing),
- `src/src/game/manager.rs` (`Games::update_queue`),
- `src/database/src/interfaces/galaxy_at_war.rs` (`GalaxyAtWarInterface`),
- `src/src/servers/main/session.rs` (`Session` outbound queue and
  network-info fix-up),
- `src/src/servers/main/routes/user_sessions.rs` (`handle_resume_session`).

Machine integers are modelled as `Nat` with explicit wrap-around
(`% 2 ^ w`) exactly where the Rust release semantics wraps. Strings are
modelled as `List Char`. External effects (database lookups, the public-IP
HTTP oracle) are passed in as explicit parameters.
-/

/-! ## Decimal printing and parsing (models Rust `format!("{}", n)` and
`str::parse::<u32>` as used by `NetAddress`) -/

/-- Fuel-driven decimal printer: digits of `n`, most significant first.
Models Rust `format!("{}", n)` for unsigned integers (no sign, no leading
zeros, `"0"` for zero). -/
def toDecimalAux : Nat → Nat → List Char
  | 0, _ => []
  | fuel + 1, n =>
    if n < 10 then [Char.ofNat (48 + n)]
    else toDecimalAux fuel (n / 10) ++ [Char.ofNat (48 + n % 10)]

/-- Decimal representation of `n` as a character list. -/
def toDecimal (n : Nat) : List Char := toDecimalAux (n + 1) n

/-- Whether `c` is an ASCII decimal digit. -/
def isDigitChar (c : Char) : Bool := 48 ≤ c.toNat && c.toNat ≤ 57

/-- Models Rust `str::parse::<u32>`: an optional leading `+`, then one or
more decimal digits; any other character or a value exceeding `u32::MAX`
is a parse error (`none`). Rust rejects the overflow as soon as it occurs
while folding digits; checking the final value is equivalent for the
`Option` result. -/
def parseU32 (cs : List Char) : Option Nat :=
  let cs := match cs with
    | '+' :: rest => rest
    | other => other
  if cs.isEmpty then none
  else if cs.all isDigitChar then
    let v := cs.foldl (fun acc c => acc * 10 + (c.toNat - 48)) 0
    if v < 2 ^ 32 then some v else none
  else none

/-- Models Rust `str::split('.')`: splitting the empty string yields one
empty part, a trailing separator yields a trailing empty part. -/
def splitDot : List Char → List (List Char)
  | [] => [[]]
  | c :: rest =>
    if c = '.' then [] :: splitDot rest
    else
      match splitDot rest with
      | [] => [[c]]
      | p :: ps => (c :: p) :: ps

namespace NetAddress

/-- Embeds `NetAddress::is_invalid` (src/src/blaze/shared.rs): the packed
address is invalid iff it is zero. -/
def is_invalid (a : Nat) : Bool := a == 0

/-- Embeds `NetAddress::from_ipv4` (src/src/blaze/shared.rs): split on `.`,
keep the parts that parse as `u32`, return 0 when fewer than four parts
remain, else pack `parts[0] << 24 | parts[1] << 16 | parts[2] << 8 |
parts[3]`. The Rust `<<` on `u32` discards shifted-out high bits, modelled
by `% 2 ^ 32`; the match on the first four parts is the `parts.len() < 4`
guard followed by indexing. -/
def from_ipv4 (s : List Char) : Nat :=
  match (splitDot s).filterMap parseU32 with
  | p1 :: p2 :: p3 :: p4 :: _ =>
    ((((p1 <<< 24) % 2 ^ 32) ||| ((p2 <<< 16) % 2 ^ 32)) ||| ((p3 <<< 8) % 2 ^ 32)) ||| p4
  | _ => 0

/-- Embeds `NetAddress::to_ipv4` (src/src/blaze/shared.rs): the four bytes
`(a >> k) & 0xFF` printed as a dotted quad. -/
def to_ipv4 (a : Nat) : List Char :=
  toDecimal ((a >>> 24) &&& 255) ++ '.' ::
    (toDecimal ((a >>> 16) &&& 255) ++ '.' ::
      (toDecimal ((a >>> 8) &&& 255) ++ '.' :: toDecimal (a &&& 255)))

end NetAddress

/-! ## Galaxy-at-War (src/database/src/interfaces/galaxy_at_war.rs) -/

/-- Embeds the five `u16` group columns of the `galaxy_at_war` row
(src/src/database/entities/galaxy_at_war.rs). The identity columns `id`,
`player_id` and the `last_modified` timestamp are not touched by the
arithmetic under verification and are omitted. -/
structure GalaxyAtWar where
  group_a : Nat
  group_b : Nat
  group_c : Nat
  group_d : Nat
  group_e : Nat
deriving DecidableEq

namespace GalaxyAtWarInterface

/-- Constant `GalaxyAtWarInterface::MIN_VALUE`. -/
def MIN_VALUE : Nat := 5000

/-- Constant `GalaxyAtWarInterface::MAX_VALUE`. -/
def MAX_VALUE : Nat := 10099

/-- Rust release-mode `u16` subtraction `a - b`, which wraps modulo
`2 ^ 16` on underflow (a debug build panics instead). Both arguments are
`u16` values, i.e. below `2 ^ 16`. -/
def u16_sub (a b : Nat) : Nat := (a + 2 ^ 16 - b % 2 ^ 16) % 2 ^ 16

/-- Embeds `GalaxyAtWarInterface::apply_decay`. `decay_pos` is the result
of the guard `decay > 0.0` (the function returns the row unchanged when
the decay is not positive). `decay_value` is the already-computed
`(decay * days_passed * 100.0) as u16`; the float multiplication and the
saturating float-to-`u16` cast happen before the integer arithmetic this
claim is about, so the cast result is taken as the input. Each group
is updated to `max(group - decay_value, MIN_VALUE)` where `-` is the
wrapping `u16` subtraction. -/
def apply_decay (decay_pos : Bool) (decay_value : Nat) (value : GalaxyAtWar) : GalaxyAtWar :=
  if !decay_pos then value
  else
    { group_a := max (u16_sub value.group_a decay_value) MIN_VALUE
      group_b := max (u16_sub value.group_b decay_value) MIN_VALUE
      group_c := max (u16_sub value.group_c decay_value) MIN_VALUE
      group_d := max (u16_sub value.group_d decay_value) MIN_VALUE
      group_e := max (u16_sub value.group_e decay_value) MIN_VALUE }

/-- The value the specification's decay formula assigns to one group:
`max(stored - floor(decay * days * 100), 5000)` computed over the
integers (no wrap-around). Used to compare the code against the claim. -/
def spec_decay_value (stored delta : Int) : Int := max (stored - delta) 5000

/-- Embeds `GalaxyAtWarInterface::increase`: each stored group is replaced
by `min(provided, MAX_VALUE)`; the previous stored values are not read. -/
def increase (value : GalaxyAtWar) (values : Nat × Nat × Nat × Nat × Nat) : GalaxyAtWar :=
  { value with
    group_a := min values.1 MAX_VALUE
    group_b := min values.2.1 MAX_VALUE
    group_c := min values.2.2.1 MAX_VALUE
    group_d := min values.2.2.2.1 MAX_VALUE
    group_e := min values.2.2.2.2 MAX_VALUE }

end GalaxyAtWarInterface

/-! ## Game model (src/src/game/mod.rs, src/src/game/manager.rs) -/

/-- Player mesh-connection states (spec section 4.5; the `PlayerState`
enum lives in `src/src/game/enums.rs`, not part of the snapshot — the
three states named by the spec and used by `game/mod.rs` are modelled). -/
inductive PlayerState
  | disconnected
  | connecting
  | connected
deriving DecidableEq

/-- Game lifecycle states (spec section 3.5; the `GameState` enum lives in
`src/src/game/enums.rs`, not part of the snapshot). -/
inductive GameState
  | init
  | inGame
  | hostMigration
deriving DecidableEq

/-- Modelled from the spec: `GamePlayer` (src/src/game/player.rs is not in
the snapshot). Spec section 4.4 gives the value-typed handle
`{session_id, player_id, display_name, net_snapshot, mailbox_sender}`;
the fields read or written by `game/mod.rs` are kept: `session_id`,
`player_id`, the mesh `state`, and the `game_id` written by
`Game::add_player`. The mailbox sender is modelled by emitting events. -/
structure GamePlayer where
  session_id : Nat
  player_id : Nat
  game_id : Nat := 0
  state : PlayerState := PlayerState.connecting
deriving DecidableEq

instance : Inhabited GamePlayer := ⟨{ session_id := 0, player_id := 0 }⟩

/-- Modelled from the spec: rule matchers (src/src/game/rules.rs is not in
the snapshot). Spec section 3.6: a matcher is `Equals(set_of_values)` or
`Any`. -/
inductive Matcher
  | any
  | equals (values : List String)
deriving DecidableEq

/-- Modelled from the spec: whether a matcher accepts an attribute value
(spec section 4.5: `Any` accepts everything; `Equals(S)` accepts iff the
value is in `S`). -/
def Matcher.accepts (m : Matcher) (v : String) : Bool :=
  match m with
  | .any => true
  | .equals values => values.contains v

/-- Modelled from the spec: a `RuleSet` is a list of
`(attribute_key, matcher)` predicates (spec section 3.6). -/
abbrev RuleSet : Type := List (String × Matcher)

/-- Insertion-ordered attribute map (`TdfMap<String, String>` from the
`blaze_pk` dependency), modelled as an association list. -/
abbrev AttrMap : Type := List (String × String)

/-- Lookup in the insertion-ordered attribute map. -/
def AttrMap.lookup (m : AttrMap) (k : String) : Option String :=
  (List.find? (fun kv => kv.1 == k) m).map (fun kv => kv.2)

/-- Insert-or-overwrite preserving insertion order (the `TdfMap::insert`
behaviour used by `TdfMap::extend`). -/
def AttrMap.insert (m : AttrMap) (k v : String) : AttrMap :=
  if List.any m (fun kv => kv.1 == k) then
    List.map (fun kv => if kv.1 == k then (k, v) else kv) m
  else m ++ [(k, v)]

/-- Merge-extend of attribute maps (`data.attributes.extend(attributes)`
in `Game::set_attributes`). -/
def AttrMap.extend (m other : AttrMap) : AttrMap :=
  List.foldl (fun acc kv => AttrMap.insert acc kv.1 kv.2) m other

/-- Modelled from the spec: `RuleSet::matches` (src/src/game/rules.rs is
not in the snapshot). Spec section 4.5: rules match iff for every
`(key, matcher)` in the rules the attribute map either lacks the key or
its value is accepted by the matcher. -/
def RuleSet.matches (rules : RuleSet) (attributes : AttrMap) : Bool :=
  List.all rules (fun km =>
    match AttrMap.lookup attributes km.1 with
    | none => true
    | some v => km.2.accepts v)

/-- Result type of `Game::check_joinable` (`GameJoinableState`). -/
inductive GameJoinableState
  | joinable
  | full
  | notMatch
deriving DecidableEq

/-- Reason payload carried by `RemovePlayerType::Player`
(`RemoveReason` lives in `src/src/game/enums.rs`, not in the snapshot);
only its identity matters here, so it is modelled as a code. `generic`
stands for `RemoveReason::Generic`. -/
abbrev RemoveReason : Type := Nat

/-- Code for `RemoveReason::Generic`, used by session-based removal. -/
def RemoveReason.generic : RemoveReason := (0 : Nat)

/-- Embeds `RemovePlayerType` (src/src/game/mod.rs). -/
inductive RemovePlayerType
  | session (session_id : Nat)
  | player (player_id : Nat) (reason : RemoveReason)
deriving DecidableEq

/-- Embeds the mutable state of a `Game` (src/src/game/mod.rs): the
`GameData` record (state, setting, attributes) flattened together with
the `players` list and the `next_slot` counter. -/
structure Game where
  id : Nat
  state : GameState
  setting : Nat
  attributes : AttrMap
  players : List GamePlayer
  next_slot : Nat
deriving DecidableEq

/-- Observable side effects of processing a `GameModifyAction`: one event
per emitted notification (broadcast via `push_all` or a push targeted at
one session) or per session-mailbox message, in emission order. -/
inductive GameEvent
  | stateChange (gid : Nat) (state : GameState)
  | settingChange (gid setting : Nat)
  | attribChange (gid : Nat) (attributes : AttrMap)
  | playerJoining (slot pid : Nat)
  | gameSetup (pid : Nat) (created : Bool)
  | setSession (pid : Nat)
  | playerStateChange (gid pid : Nat) (state : PlayerState)
  | adminListChange (gid target host : Nat) (added : Bool)
  | joinComplete (gid pid : Nat)
  | playerRemoved (gid pid : Nat) (reason : RemoveReason)
  | fetchExtendedData (pid : Nat)
  | fetchToLeaver (leaverSession pid : Nat)
  | hostMigrationStart (gid hostId : Nat)
  | hostMigrationFinished (gid : Nat)
  | writeUpdates (toSession aboutPid : Nat)
  | setGameMsg (sid : Nat) (gid : Option Nat)
deriving DecidableEq

namespace Game

/-- Constant `Game::MAX_PLAYERS`. -/
def MAX_PLAYERS : Nat := 4

/-- Embeds `Game::check_joinable`: `is_joinable` is `next_slot <
MAX_PLAYERS`; when rules are present and do not match the attributes the
result is `NotMatch` (early return), otherwise `Joinable` or `Full` by
`is_joinable`. -/
def check_joinable (g : Game) (rules : Option RuleSet) : GameJoinableState :=
  let next_slot := g.next_slot
  let is_joinable := next_slot < MAX_PLAYERS
  match rules with
  | some rules =>
    if !(rules.matches g.attributes) then GameJoinableState.notMatch
    else if is_joinable then GameJoinableState.joinable else GameJoinableState.full
  | none =>
    if is_joinable then GameJoinableState.joinable else GameJoinableState.full

/-- Embeds `Game::update_clients`: for each current member, cross-push
session updates between that member and `player`, in list order. -/
def update_clients (g : Game) (player : GamePlayer) : List GameEvent :=
  List.flatMap g.players
    (fun value =>
      [GameEvent.writeUpdates value.session_id player.player_id,
       GameEvent.writeUpdates player.session_id value.player_id])

/-- Embeds `Game::notify_player_joining`: no event for the host slot,
otherwise a `PlayerJoining` broadcast (also pushed to the joiner). -/
def notify_player_joining (player : GamePlayer) (slot : Nat) : List GameEvent :=
  if slot == 0 then []
  else [GameEvent.playerJoining slot player.player_id]

/-- Embeds `Game::add_player`: acquire the next slot, set the player's
game id, notify joining, cross-update clients, send  `GameSetup`
(`Created` for slot 0, `Joined` otherwise), message the session's
mailbox with the game id, broadcast the joiner's `SetSession`, then
append the player to the players list. -/
def add_player (g : Game) (player : GamePlayer) : Game × List GameEvent :=
  let slot := g.next_slot
  let g1 : Game := { g with next_slot := slot + 1 }
  let player := { player with game_id := g.id }
  let events :=
    notify_player_joining player slot
      ++ update_clients g1 player
      ++ [GameEvent.gameSetup player.player_id (slot == 0)]
      ++ [GameEvent.setGameMsg player.session_id (some g.id)]
      ++ [GameEvent.setSession player.player_id]
  ({ g1 with players := g1.players ++ [player] }, events)

/-- Embeds `Game::set_state`: write the state, then broadcast
`GameStateChange`. -/
def set_state (g : Game) (state : GameState) : Game × List GameEvent :=
  ({ g with state := state }, [GameEvent.stateChange g.id state])

/-- Embeds `Game::set_setting`: write the setting, then broadcast
`GameSettingsChange`. -/
def set_setting (g : Game) (setting : Nat) : Game × List GameEvent :=
  ({ g with setting := setting }, [GameEvent.settingChange g.id setting])

/-- Embeds `Game::set_attributes`: the `GameAttribChange` notification is
built from the incoming attributes, then the stored attributes are
merge-extended. -/
def set_attributes (g : Game) (attributes : AttrMap) : Game × List GameEvent :=
  ({ g with attributes := AttrMap.extend g.attributes attributes },
   [GameEvent.attribChange g.id attributes])

/-- Embeds `Game::modify_admin_list`: no event when the game has no host
(empty players list); otherwise an `AdminListChange` broadcast naming the
target, the operation and the current host (`players.first()`). -/
def modify_admin_list (g : Game) (target : Nat) (added : Bool) : List GameEvent :=
  match g.players.head? with
  | none => []
  | some host => [GameEvent.adminListChange g.id target host.player_id added]

/-- Replace-first helper for `Game::set_player_state`: update the state of
the first player with the given session id, returning the new list and
that player's id. -/
def replace_player_state :
    List GamePlayer → Nat → PlayerState → Option (List GamePlayer × Nat)
  | [], _, _ => none
  | p :: rest, sid, st =>
    if p.session_id == sid then some (({ p with state := st }) :: rest, p.player_id)
    else
      match replace_player_state rest sid st with
      | none => none
      | some (rest2, pid) => some (p :: rest2, pid)

/-- Embeds `Game::set_player_state`: mutate the matching player's state
and broadcast `GamePlayerStateChange`; nothing happens when no player has
the session id. -/
def set_player_state (g : Game) (session : Nat) (state : PlayerState) :
    Game × List GameEvent :=
  match replace_player_state g.players session state with
  | none => (g, [])
  | some (players, pid) =>
    ({ g with players := players }, [GameEvent.playerStateChange g.id pid state])

/-- Embeds `Game::on_join_complete`: broadcast `PlayerJoinCompleted` for
the session's player and add them to the (pseudo) admin list. -/
def on_join_complete (g : Game) (session : Nat) : List GameEvent :=
  match List.find? (fun v => v.session_id == session) g.players with
  | none => []
  | some player =>
    GameEvent.joinComplete g.id player.player_id :: modify_admin_list g player.player_id true

/-- Embeds `Game::update_mesh_connection` (the mesh-connection FSM):
only `Connecting` with both endpoints in the game causes a transition
(to `Connected`) and the join-complete notifications. -/
def update_mesh_connection (g : Game) (session target : Nat) (state : PlayerState) :
    Game × List GameEvent :=
  match state with
  | .disconnected => (g, [])
  | .connecting =>
    if List.any g.players (fun v => v.session_id == session)
        && List.any g.players (fun v => v.player_id == target) then
      let (g1, e1) := set_player_state g session PlayerState.connected
      (g1, e1 ++ on_join_complete g1 session)
    else (g, [])
  | .connected => (g, [])

/-- Embeds `Game::try_migrate_host`: nothing when no players remain;
otherwise set state to `HostMigration`, broadcast `HostMigrationStart`
naming `players[0]`, set state to `InGame`, broadcast
`HostMigrationFinished`, then cross-update clients with the new host. -/
def try_migrate_host (g : Game) : Game × List GameEvent :=
  match g.players.head? with
  | none => (g, [])
  | some new_host =>
    let (g1, e1) := set_state g GameState.hostMigration
    let (g2, e3) := set_state g1 GameState.inGame
    (g2,
      e1 ++ [GameEvent.hostMigrationStart g.id new_host.player_id]
        ++ e3 ++ [GameEvent.hostMigrationFinished g.id]
        ++ update_clients g2 new_host)

/-- Embeds `Game::notify_fetch_data`: a `FetchExtendedData` broadcast for
the leaver, then one push to the leaver per remaining player. -/
def notify_fetch_data (g : Game) (player : GamePlayer) : List GameEvent :=
  GameEvent.fetchExtendedData player.player_id ::
    List.map (fun other => GameEvent.fetchToLeaver player.session_id other.player_id)
      g.players

/-- Index located by `Game::remove_player` for a removal request, and the
reason reported: position of the first player matching the player id or
session id (`Iterator::position`). -/
def find_remove_target (players : List GamePlayer) (ty : RemovePlayerType) :
    Option Nat × RemoveReason :=
  match ty with
  | .player pid reason => (List.findIdx? (fun v => v.player_id == pid) players, reason)
  | .session sid =>
    (List.findIdx? (fun v => v.session_id == sid) players, RemoveReason.generic)

/-- Embeds `Game::remove_player`: an empty game reports empty at once; a
missing target is a no-op reporting non-empty. Otherwise the player is
removed from the list, their session is told to clear its game, the
`PlayerRemoved` and `FetchExtendedData` notifications are emitted, the
admin list drops the leaver (host read after removal), host migration
runs when slot 0 was vacated, and finally the slot counter is released
(`next_slot - 1`; the Rust `usize` subtraction would panic below zero). -/
def remove_player (g : Game) (ty : RemovePlayerType) : Game × List GameEvent × Bool :=
  if g.players.isEmpty then (g, [], true)
  else
    match find_remove_target g.players ty with
    | (none, _) => (g, [], false)
    | (some index, reason) =>
      let player := g.players.getD index default
      let players2 := g.players.eraseIdx index
      let is_empty := players2.isEmpty
      let g1 : Game := { g with players := players2 }
      let events :=
        [GameEvent.setGameMsg player.session_id none,
         GameEvent.playerRemoved g.id player.player_id reason]
          ++ notify_fetch_data g1 player
          ++ modify_admin_list g1 player.player_id false
      let (g2, migration_events) :=
        if index == 0 then try_migrate_host g1 else (g1, [])
      ({ g2 with next_slot := g2.next_slot - 1 }, events ++ migration_events, is_empty)

end Game

/-- Embeds `GameModifyAction` (src/src/game/mod.rs). The reply channels of
`RemovePlayer`, `CheckJoinable` and `Snapshot` are modelled by the
dedicated functions' return values; as actions on the game state the two
queries are read-only. -/
inductive GameModifyAction
  | addPlayer (player : GamePlayer)
  | setState (state : GameState)
  | setSetting (setting : Nat)
  | setAttributes (attributes : AttrMap)
  | updateMeshConnection (session target : Nat) (state : PlayerState)
  | removePlayer (ty : RemovePlayerType)
  | checkJoinable (rules : Option RuleSet)
  | snapshot
deriving DecidableEq

/-- Embeds `Game::handle_action`: dispatch of one `GameModifyAction` to
the corresponding operation, returning the updated game and the emitted
events. -/
def Game.handle_action (g : Game) (action : GameModifyAction) : Game × List GameEvent :=
  match action with
  | .addPlayer player => g.add_player player
  | .setState state => g.set_state state
  | .setSetting setting => g.set_setting setting
  | .setAttributes attributes => g.set_attributes attributes
  | .updateMeshConnection session target state => g.update_mesh_connection session target state
  | .removePlayer ty =>
    let (g2, events, _) := g.remove_player ty
    (g2, events)
  | .checkJoinable _ => (g, [])
  | .snapshot => (g, [])

/-- Embeds `QueueEntry` (src/src/game/manager.rs): a queued player, the
rules a game must meet, and the enqueue time (opaque tick count; only
logged by the source). -/
structure QueueEntry where
  player : GamePlayer
  rules : RuleSet
  time : Nat := 0
deriving DecidableEq

namespace Games

/-- Loop body of `Games::update_queue`: pop entries from the queue front;
`Full` pushes the current entry back to the front of the *remaining*
queue and returns at once (the accumulated `unmatched` list is
discarded); `NotMatch` appends the entry to `unmatched`; `Joinable`
sends `AddPlayer` to the game (processed by the game task before the
next `check_joinable` on its mailbox) and drops the entry. When the
walk completes the queue is replaced by `unmatched`. -/
def update_queue_loop (g : Game) (unmatched : List QueueEntry) :
    List QueueEntry → List QueueEntry × Game
  | [] => (unmatched, g)
  | entry :: rest =>
    match g.check_joinable (some entry.rules) with
    | .full => (entry :: rest, g)
    | .notMatch => update_queue_loop g (unmatched ++ [entry]) rest
    | .joinable => update_queue_loop (g.add_player entry.player).1 unmatched rest

/-- Embeds `Games::update_queue`: nothing happens on an empty queue,
otherwise the walk above runs with an empty `unmatched` accumulator. -/
def update_queue (g : Game) (queue : List QueueEntry) : List QueueEntry × Game :=
  if queue.isEmpty then (queue, g)
  else update_queue_loop g [] queue

end Games

/-! ## Session outbound queue (src/src/servers/main/session.rs) -/

/-- Outbound packet, identified abstractly; the session queue logic never
inspects packet contents. -/
structure Packet where
  pid : Nat
deriving DecidableEq

/-- Outbound state of a session: the FIFO write queue and the sequence of
packets already written to the socket, in write order. -/
structure SessionOut where
  queue : List Packet
  written : List Packet
deriving DecidableEq

namespace SessionOut

/-- Embeds `Session::push`: append one packet to the back of the queue
(and raise the flush notification). -/
def push (s : SessionOut) (packet : Packet) : SessionOut :=
  { s with queue := s.queue ++ [packet] }

/-- Embeds `Session::push_all`: append all packets to the back of the
queue (and raise one flush notification). -/
def push_all (s : SessionOut) (packets : List Packet) : SessionOut :=
  { s with queue := s.queue ++ packets }

/-- Embeds `Session::flush`: drain the queue front-to-back, writing each
packet to the socket. -/
def flush (s : SessionOut) : SessionOut :=
  { queue := [], written := s.written ++ s.queue }

/-- Embeds `Session::write`: write the packet directly to the underlying
stream, bypassing the queue. -/
def write (s : SessionOut) (packet : Packet) : SessionOut :=
  { s with written := s.written ++ [packet] }

/-- Embeds the outbound effects of `Session::handle_packet`: routing may
push notification packets onto the session's own queue (`route_pushes`,
e.g. the `SetSession` pushed by `update_client`) and produces a response
(or error) packet; the response is then written directly via
`Session::write`, and finally `Session::flush` drains the queue. -/
def handle_packet (s : SessionOut) (route_pushes : List Packet) (response : Packet) :
    SessionOut :=
  flush (write (push_all s route_pushes) response)

/-- Stated from the spec for comparison (spec sections 4.4 and 5): the
claimed discipline in which the handler's response is also enqueued, so
that response and notifications leave through the single flush drain
point in enqueue order. -/
def handle_packet_spec (s : SessionOut) (route_pushes : List Packet) (response : Packet) :
    SessionOut :=
  flush (push (push_all s route_pushes) response)

end SessionOut

/-! ## Network-info fix-up (src/src/servers/main/session.rs,
src/src/utils/ip.rs) -/

/-- Observed peer address of a session (`SocketAddr::ip()`): an IPv4
address as four octets, or an IPv6 address (whose structure the code
never inspects). -/
inductive IpAddr
  | v4 (a b c d : Nat)
  | v6
deriving DecidableEq

/-- Models `Ipv4Addr::is_loopback`: first octet 127. -/
def ipv4_is_loopback (a : Nat) : Bool := a == 127

/-- Models `Ipv4Addr::is_private`: the RFC1918 ranges 10/8, 172.16/12 and
192.168/16. -/
def ipv4_is_private (a b : Nat) : Bool :=
  a == 10 || (a == 172 && 16 ≤ b && b ≤ 31) || (a == 192 && b == 168)

/-- Models `format!("{}", value)` on an `Ipv4Addr`: the dotted quad. -/
def format_ipv4 (a b c d : Nat) : List Char :=
  toDecimal a ++ '.' :: (toDecimal b ++ '.' :: (toDecimal c ++ '.' :: toDecimal d))

/-- Embeds `public_address` (src/src/utils/ip.rs): one HTTP GET of
`ipv4.icanhazip.com` per call, returning the trimmed response body, or
`none` when the request fails. The function keeps no state between
calls; each call's response is the explicit `oracle` argument. -/
def public_address (oracle : Option (List Char)) : Option (List Char) := oracle

/-- Embeds `Session::get_network_address`: for an IPv4 peer that is
loopback or private, a successful `public_address` call supplies the
string to parse (early return); otherwise — including when the oracle
fails — the peer address itself is formatted and parsed. IPv6 peers
yield address 0. -/
def get_network_address (addr : IpAddr) (oracle : Option (List Char)) : Nat :=
  match addr with
  | .v4 a b c d =>
    if ipv4_is_loopback a || ipv4_is_private a b then
      match public_address oracle with
      | some public_addr => NetAddress.from_ipv4 public_addr
      | none => NetAddress.from_ipv4 (format_ipv4 a b c d)
    else NetAddress.from_ipv4 (format_ipv4 a b c d)
  | .v6 => 0

/-- Embeds `NetGroup` (src/src/blaze/shared.rs): a packed address and a
port. -/
structure NetGroup where
  ip : Nat
  port : Nat
deriving DecidableEq

/-- Embeds `NetGroups`: the internal and external address groups. -/
structure NetGroups where
  internal : NetGroup
  external : NetGroup
deriving DecidableEq

/-- Embeds the quality-of-service payload (`QosNetworkData`). -/
structure QosNetworkData where
  dbps : Nat := 0
  natt : Nat := 0
  ubps : Nat := 0
deriving DecidableEq

/-- Embeds `NetData`: groups, QoS data and the is-set flag (the hardware
flags are untouched by `set_network_info`). -/
structure NetData where
  groups : NetGroups
  qos : QosNetworkData
  is_set : Bool
deriving DecidableEq

/-- The part of a `Session` that `set_network_info` works on: the remote
socket address and the networking data. -/
structure SessionNet where
  addr : IpAddr
  net : NetData
deriving DecidableEq

/-- Embeds `Session::update_missing_external`: when the external address
is invalid (0) or its port is 0, the port is matched with the internal
group's port and the address is recomputed from the session's observed
peer address. -/
def update_missing_external (s : SessionNet) (oracle : Option (List Char)) : SessionNet :=
  let groups := s.net.groups
  let external := groups.external
  if NetAddress.is_invalid external.ip || external.port == 0 then
    { s with
      net := { s.net with
        groups := { groups with
          external :=
            { ip := get_network_address s.addr oracle
              port := groups.internal.port } } } }
  else s

/-- Embeds `Session::set_network_info`: mark the data set, store the QoS
payload and the provided groups, then fix up a missing external address
(the final `update_client` push is outbound traffic, not network state).
`oracle` is the response of the public-IP HTTP call made during this
invocation, if one is made. -/
def set_network_info (s : SessionNet) (groups : NetGroups) (ext : QosNetworkData)
    (oracle : Option (List Char)) : SessionNet :=
  update_missing_external
    { s with net := { groups := groups, qos := ext, is_set := true } } oracle

/-! ## ResumeSession (src/src/servers/main/routes/user_sessions.rs,
src/core/src/blaze/errors.rs) -/

/-- Embeds the `players` row fields the resume path touches. -/
structure Player where
  id : Nat
deriving DecidableEq

/-- Embeds `ServerError` (src/core/src/blaze/errors.rs). -/
inductive ServerError
  | serverUnavailable
  | emailNotFound
  | wrongPassword
  | invalidSession
  | emailAlreadyInUse
  | ageRestriction
  | invalidAccount
  | bannedAccount
  | invalidInformation
  | invalidEmail
  | legalGuardianRequired
  | codeRequired
  | keyCodeAlreadyInUse
  | invalidCerberusKey
  | serverUnavailableFinal
  | failedNoLoginAction
  | serverUnavailableNothing
  | connectionLost
  | suspend12D
  | suspend12E
deriving DecidableEq

/-- The wire codes of `ServerError` (its `#[repr(u16)]` discriminants). -/
def ServerError.code : ServerError → Nat
  | .serverUnavailable => 0x0
  | .emailNotFound => 0xB
  | .wrongPassword => 0xC
  | .invalidSession => 0xD
  | .emailAlreadyInUse => 0x0F
  | .ageRestriction => 0x10
  | .invalidAccount => 0x11
  | .bannedAccount => 0x13
  | .invalidInformation => 0x15
  | .invalidEmail => 0x16
  | .legalGuardianRequired => 0x2A
  | .codeRequired => 0x32
  | .keyCodeAlreadyInUse => 0x33
  | .invalidCerberusKey => 0x34
  | .serverUnavailableFinal => 0x4001
  | .failedNoLoginAction => 0x4004
  | .serverUnavailableNothing => 0x4005
  | .connectionLost => 0x4007
  | .suspend12D => 0x12D
  | .suspend12E => 0x12E

/-- The player binding of a main-server session (`Session.player`). -/
structure MainSession where
  player : Option Player
deriving DecidableEq

/-- Embeds `handle_resume_session`. `lookup` is the result of
`Player::by_token(db, req.session_token)`: a database error
(`Except.error ()`), no matching player, or the matching player.
`token` is the session token minted on the success path. The handler
returns the updated session and either the authenticated player for the
response or the `ServerError` to report: `Ok(None)` (no player for the
token) maps to `InvalidSession` without touching the session, a database
error maps to `ServerUnavailable`, and only the success path rebinds the
session's player. -/
def handle_resume_session (lookup : Except Unit (Option Player)) (token : String)
    (s : MainSession) : MainSession × Except ServerError (Player × String) :=
  match lookup with
  | .error _ => (s, .error ServerError.serverUnavailable)
  | .ok none => (s, .error ServerError.invalidSession)
  | .ok (some player) => ({ s with player := some player }, .ok (player, token))

/-- Packet types of the frame header (spec section 3.2). -/
inductive PacketType
  | request
  | response
  | notify
  | error
deriving DecidableEq

/-- Header of an outbound routing result: its packet type and error
field. -/
structure ResponseHeader where
  ty : PacketType
  error : Nat
deriving DecidableEq

/-- Embeds the error conversion in `Session::handle_packet`: a handler
`Ok` becomes a `Response` with error field 0, a handler `Err(e)` becomes
an `Error` packet (`Packet::error_empty`) carrying `e as u16`. -/
def route_result_header {α : Type} (result : Except ServerError α) : ResponseHeader :=
  match result with
  | .ok _ => { ty := PacketType.response, error := 0 }
  | .error e => { ty := PacketType.error, error := e.code }

/-! ## Concrete instances used by the evaluation theorems -/

/-- Event classifier: `HostMigrationStart` broadcasts. -/
def is_migration_start_event : GameEvent → Bool
  | .hostMigrationStart _ _ => true
  | _ => false

/-- Event classifier: `HostMigrationFinished` broadcasts. -/
def is_migration_finished_event : GameEvent → Bool
  | .hostMigrationFinished _ => true
  | _ => false

/-- Event classifier: `GameStateChange` broadcasts (emitted right after
each write of the game state). -/
def is_state_change_event : GameEvent → Bool
  | .stateChange _ _ => true
  | _ => false

/-- A full game: four players, `next_slot = 4`, one attribute
`mode = x`. -/
def fullGameExample : Game :=
  { id := 1
    state := GameState.inGame
    setting := 0
    attributes := [("mode", "x")]
    players :=
      [⟨1, 101, 1, PlayerState.connected⟩, ⟨2, 102, 1, PlayerState.connected⟩,
       ⟨3, 103, 1, PlayerState.connected⟩, ⟨4, 104, 1, PlayerState.connected⟩]
    next_slot := 4 }

/-- A queue entry whose rules demand `mode = y` and therefore do not
match `fullGameExample`. -/
def queueEntryNoMatch : QueueEntry :=
  { player := ⟨5, 105, 0, PlayerState.connecting⟩
    rules := [("mode", Matcher.equals ["y"])] }

/-- A queue entry with an empty rule set, which matches every game. -/
def queueEntryMatch : QueueEntry :=
  { player := ⟨6, 106, 0, PlayerState.connecting⟩, rules := [] }

/-- A two-player game used to exercise host migration. -/
def twoPlayerGameExample : Game :=
  { id := 7
    state := GameState.inGame
    setting := 0
    attributes := []
    players := [⟨1, 101, 7, PlayerState.connected⟩, ⟨2, 102, 7, PlayerState.connected⟩]
    next_slot := 2 }

/-! ## Helper lemmas -/

set_option maxRecDepth 4096 in
theorem parseU32_toDecimal : ∀ n < 256, parseU32 (toDecimal n) = some n := by decide

set_option maxRecDepth 4096 in
theorem dot_not_mem_toDecimal : ∀ n < 256, ('.' : Char) ∉ toDecimal n := by decide

theorem splitDot_no_dot (xs : List Char) (h : ('.' : Char) ∉ xs) : splitDot xs = [xs] := by
  induction xs with
  | nil => rfl
  | cons c rest ih =>
    simp only [List.mem_cons, not_or] at h
    rw [splitDot, if_neg (fun hc => h.1 hc.symm), ih h.2]

theorem splitDot_append_dot (xs ys : List Char) (h : ('.' : Char) ∉ xs) :
    splitDot (xs ++ '.' :: ys) = xs :: splitDot ys := by
  induction xs with
  | nil => simp [splitDot]
  | cons c rest ih =>
    simp only [List.mem_cons, not_or] at h
    rw [List.cons_append, splitDot, if_neg (fun hc => h.1 hc.symm), ih h.2]

theorem ipv4_recombine (a : Nat) (ha : a < 2 ^ 32) :
    (((((a >>> 24) &&& 255) <<< 24) ||| (((a >>> 16) &&& 255) <<< 16)) |||
      (((a >>> 8) &&& 255) <<< 8)) ||| (a &&& 255) = a := by
  apply Nat.eq_of_testBit_eq
  intro i
  have h255 : (255 : Nat) = 2 ^ 8 - 1 := by norm_num
  simp only [h255, Nat.testBit_or, Nat.testBit_shiftLeft, Nat.testBit_and,
    Nat.testBit_shiftRight, Nat.testBit_two_pow_sub_one]
  rcases Nat.lt_or_ge i 32 with h | h
  · interval_cases i <;> simp
  · have hfa : a.testBit i = false :=
      Nat.testBit_eq_false_of_lt
        (lt_of_lt_of_le ha (Nat.pow_le_pow_right (by norm_num) h))
    have h1 : ¬(i - 24 < 8) := by omega
    have h2 : ¬(i - 16 < 8) := by omega
    have h3 : ¬(i - 8 < 8) := by omega
    have h4 : ¬(i < 8) := by omega
    simp [h1, h2, h3, h4, hfa]

/-! ## Claim C10 -/

/-- Claim C10: for every 32-bit value `a`,
`NetAddress::from_ipv4(NetAddress(a).to_ipv4())` equals `NetAddress(a)`,
and for every input string with fewer than four parseable numeric
dot-separated parts `from_ipv4` returns `NetAddress(0)`. -/
theorem netAddress_from_to_ipv4_roundtrip :
    (∀ a : Nat, a < 2 ^ 32 →
      NetAddress.from_ipv4 (NetAddress.to_ipv4 a) = a) ∧
    (∀ s : List Char, ((splitDot s).filterMap parseU32).length < 4 →
      NetAddress.from_ipv4 s = 0) := by
  constructor
  · intro a ha
    have hb1 : (a >>> 24) &&& 255 < 256 := lt_of_le_of_lt Nat.and_le_right (by norm_num)
    have hb2 : (a >>> 16) &&& 255 < 256 := lt_of_le_of_lt Nat.and_le_right (by norm_num)
    have hb3 : (a >>> 8) &&& 255 < 256 := lt_of_le_of_lt Nat.and_le_right (by norm_num)
    have hb4 : a &&& 255 < 256 := lt_of_le_of_lt Nat.and_le_right (by norm_num)
    have hsplit : splitDot (NetAddress.to_ipv4 a) =
        [toDecimal ((a >>> 24) &&& 255), toDecimal ((a >>> 16) &&& 255),
         toDecimal ((a >>> 8) &&& 255), toDecimal (a &&& 255)] := by
      rw [NetAddress.to_ipv4, splitDot_append_dot _ _ (dot_not_mem_toDecimal _ hb1),
        splitDot_append_dot _ _ (dot_not_mem_toDecimal _ hb2),
        splitDot_append_dot _ _ (dot_not_mem_toDecimal _ hb3),
        splitDot_no_dot _ (dot_not_mem_toDecimal _ hb4)]
    have hmod : ∀ (b k : Nat), b < 256 → k ≤ 24 → (b <<< k) % 2 ^ 32 = b <<< k := by
      intro b k hb hk
      apply Nat.mod_eq_of_lt
      rw [Nat.shiftLeft_eq]
      calc b * 2 ^ k ≤ 255 * 2 ^ 24 := by
            apply Nat.mul_le_mul (by omega) (Nat.pow_le_pow_right (by norm_num) hk)
        _ < 2 ^ 32 := by norm_num
    rw [NetAddress.from_ipv4, hsplit]
    simp only [List.filterMap, parseU32_toDecimal _ hb1, parseU32_toDecimal _ hb2,
      parseU32_toDecimal _ hb3, parseU32_toDecimal _ hb4]
    rw [hmod _ 24 hb1 (by norm_num), hmod _ 16 hb2 (by norm_num),
      hmod _ 8 hb3 (by norm_num)]
    exact ipv4_recombine a ha
  · intro s h
    unfold NetAddress.from_ipv4
    split
    · rename_i p1 p2 p3 p4 rest heq
      rw [heq] at h
      simp only [List.length_cons] at h
      omega
    · rfl

/-- Witness for claim C10 at concrete inputs: the round trip at the
packed address of 192.168.1.2, and the short-string case `"1.2.3"`. -/
theorem netAddress_from_to_ipv4_roundtrip_witness :
    NetAddress.from_ipv4 (NetAddress.to_ipv4 3232235778) = 3232235778 ∧
    NetAddress.from_ipv4 ['1', '.', '2', '.', '3'] = 0 :=
  ⟨netAddress_from_to_ipv4_roundtrip.1 3232235778 (by norm_num),
   netAddress_from_to_ipv4_roundtrip.2 ['1', '.', '2', '.', '3'] (by decide)⟩

/-! ## Claim C4 -/

/-- Claim C4: `check_joinable` returns `Joinable` iff `next_slot < 4` and
the rules are absent or match the attributes; `NotMatch` is returned
whenever rules are present and do not match; the result is always one of
the three variants. -/
theorem check_joinable_spec :
    ∀ (g : Game) (rules : Option RuleSet),
      (g.check_joinable rules = GameJoinableState.joinable ↔
        g.next_slot < 4 ∧ ∀ r, rules = some r → r.matches g.attributes = true) ∧
      (∀ r, rules = some r → r.matches g.attributes = false →
        g.check_joinable rules = GameJoinableState.notMatch) ∧
      (g.check_joinable rules = GameJoinableState.joinable ∨
        g.check_joinable rules = GameJoinableState.full ∨
        g.check_joinable rules = GameJoinableState.notMatch) := by
  intro g rules
  cases rules with
  | none =>
    by_cases h : g.next_slot < 4 <;>
      simp [Game.check_joinable, Game.MAX_PLAYERS, h]
  | some r =>
    by_cases hm : r.matches g.attributes <;>
      by_cases h : g.next_slot < 4 <;>
        simp [Game.check_joinable, Game.MAX_PLAYERS, h, hm]

/-- Witness for claim C4: a game with attribute `mode = x` and rules
demanding `mode = y` is reported `NotMatch`. -/
theorem check_joinable_spec_witness :
    Game.check_joinable fullGameExample (some [("mode", Matcher.equals ["y"])]) =
      GameJoinableState.notMatch :=
  (check_joinable_spec fullGameExample (some [("mode", Matcher.equals ["y"])])).2.1
    [("mode", Matcher.equals ["y"])] rfl (by decide)

/-! ## Claim C9 -/

/-- Claim C9: each group stored by `increase` equals
`min(provided, 10099)` — the previous stored values do not contribute
(the operation replaces rather than adds) and values below 5000 are
stored without lower clamping. -/
theorem gaw_increase_replaces :
    ∀ (m : GalaxyAtWar) (v1 v2 v3 v4 v5 : Nat),
      GalaxyAtWarInterface.increase m (v1, v2, v3, v4, v5) =
        { group_a := min v1 10099, group_b := min v2 10099, group_c := min v3 10099,
          group_d := min v4 10099, group_e := min v5 10099 } := by
  intro m v1 v2 v3 v4 v5
  rfl

/-! ## Claim C8 -/

/-- Claim C8: when the session token matches no stored player
(`Player::by_token` returns `Ok(None)`), `handle_resume_session` leaves
the session's player binding unchanged and reports `InvalidSession`,
which the packet conversion turns into an `Error` packet with code
0x0D. -/
theorem resume_session_invalid_token :
    ∀ (token : String) (s : MainSession),
      (handle_resume_session (Except.ok none) token s).1 = s ∧
      (handle_resume_session (Except.ok none) token s).2 =
        Except.error ServerError.invalidSession ∧
      route_result_header (handle_resume_session (Except.ok none) token s).2 =
        { ty := PacketType.error, error := 0x0D } := by
  intro token s
  exact ⟨rfl, rfl, rfl⟩

/-! ## Claim C6 -/

/-- Counterexample to claim C6: a handler that enqueues one notification
and returns a response. The code writes the response directly
(`Session::write`) before flushing the queue, so the socket sees
`[response, notification]`, while the claimed single-drain-point
discipline would write `[notification, response]`. -/
theorem session_single_drain_cex :
    SessionOut.handle_packet ⟨[], []⟩ [⟨1⟩] ⟨2⟩ ≠
      SessionOut.handle_packet_spec ⟨[], []⟩ [⟨1⟩] ⟨2⟩ ∧
    (SessionOut.handle_packet ⟨[], []⟩ [⟨1⟩] ⟨2⟩).written = [⟨2⟩, ⟨1⟩] ∧
    (SessionOut.handle_packet_spec ⟨[], []⟩ [⟨1⟩] ⟨2⟩).written = [⟨1⟩, ⟨2⟩] := by
  refine ⟨?_, rfl, rfl⟩
  intro h
  exact absurd (congrArg SessionOut.written h) (by decide)

/-- Claim C6 as amended: packets pushed to the session queue are drained
FIFO by `flush`, but the handler's own response bypasses the queue —
`Session::handle_packet` writes it directly to the socket and only then
flushes, so the response precedes every notification enqueued during
routing (and the previously queued packets). -/
theorem session_outbound_order :
    ∀ (s : SessionOut) (pushes : List Packet) (response : Packet),
      (SessionOut.handle_packet s pushes response).written =
        s.written ++ response :: (s.queue ++ pushes) ∧
      (SessionOut.handle_packet s pushes response).queue = [] := by
  intro s pushes response
  simp [SessionOut.handle_packet, SessionOut.flush, SessionOut.write, SessionOut.push_all]

/-! ## Claim C7 -/

/-- Counterexample to the caching part of claim C7: `public_address`
performs the HTTP query on every call and keeps no state, so two
substitutions for the same private peer observe whatever the oracle
returns at each call — a process-lifetime cache would pin the first
result. -/
theorem public_address_not_cached :
    get_network_address (IpAddr.v4 192 168 1 2) (some ['1', '.', '2', '.', '3', '.', '4']) =
      0x01020304 ∧
    get_network_address (IpAddr.v4 192 168 1 2) (some ['5', '.', '6', '.', '7', '.', '8']) =
      0x05060708 ∧
    (0x01020304 : Nat) ≠ 0x05060708 := by
  refine ⟨by decide, by decide, by decide⟩

/-- Claim C7 as amended: `set_network_info` stores the client-provided
external group unchanged unless its ip is 0 or its port is 0; in that
case the stored external address is recomputed from the session's
observed peer address (with the port matched to the internal group): a
public IPv4 peer is formatted and re-parsed, a loopback or RFC1918
private peer uses the response of a fresh public-IP oracle query, and an
IPv6 peer yields address 0. -/
theorem set_network_info_external :
    ∀ (s : SessionNet) (groups : NetGroups) (ext : QosNetworkData)
      (oracle : Option (List Char)),
      (¬(groups.external.ip = 0 ∨ groups.external.port = 0) →
        (set_network_info s groups ext oracle).net.groups.external = groups.external) ∧
      ((groups.external.ip = 0 ∨ groups.external.port = 0) →
        (set_network_info s groups ext oracle).net.groups.external =
          { ip := get_network_address s.addr oracle, port := groups.internal.port }) ∧
      (∀ a b c d, s.addr = IpAddr.v4 a b c d → ipv4_is_loopback a = false →
        ipv4_is_private a b = false →
        get_network_address s.addr oracle = NetAddress.from_ipv4 (format_ipv4 a b c d)) ∧
      (∀ a b c d pub, s.addr = IpAddr.v4 a b c d →
        (ipv4_is_loopback a = true ∨ ipv4_is_private a b = true) → oracle = some pub →
        get_network_address s.addr oracle = NetAddress.from_ipv4 pub) ∧
      (s.addr = IpAddr.v6 → get_network_address s.addr oracle = 0) := by
  intro s groups ext oracle
  refine ⟨?_, ?_, ?_, ?_, ?_⟩
  · intro h
    have hip : (NetAddress.is_invalid groups.external.ip || groups.external.port == 0) = false := by
      simp only [not_or] at h
      simp [NetAddress.is_invalid, h.1, h.2]
    simp [set_network_info, update_missing_external, hip]
  · intro h
    have hip : (NetAddress.is_invalid groups.external.ip || groups.external.port == 0) = true := by
      rcases h with h | h <;> simp [NetAddress.is_invalid, h]
    simp [set_network_info, update_missing_external, hip]
  · intro a b c d haddr hl hp
    rw [haddr]
    simp [get_network_address, hl, hp]
  · intro a b c d pub haddr hlp horacle
    rw [haddr, horacle]
    have : (ipv4_is_loopback a || ipv4_is_private a b) = true := by
      rcases hlp with h | h <;> simp [h]
    simp [get_network_address, this, public_address]
  · intro haddr
    rw [haddr]
    rfl

/-- Witness for claim C7: a session with external ip 0 behind the private
peer 10.0.0.5 whose oracle query answers `"9.8.7.6"` stores that public
address with the internal port. -/
theorem set_network_info_external_witness :
    (set_network_info
        ⟨IpAddr.v4 10 0 0 5, ⟨⟨⟨0, 0⟩, ⟨0, 0⟩⟩, ⟨0, 0, 0⟩, false⟩⟩
        ⟨⟨0x0A000005, 3659⟩, ⟨0, 42⟩⟩ ⟨0, 4, 0⟩
        (some ['9', '.', '8', '.', '7', '.', '6'])).net.groups.external =
      { ip := get_network_address (IpAddr.v4 10 0 0 5) (some ['9', '.', '8', '.', '7', '.', '6'])
        port := 3659 } ∧
    get_network_address (IpAddr.v4 10 0 0 5) (some ['9', '.', '8', '.', '7', '.', '6']) =
      NetAddress.from_ipv4 ['9', '.', '8', '.', '7', '.', '6'] :=
  ⟨(set_network_info_external
      ⟨IpAddr.v4 10 0 0 5, ⟨⟨⟨0, 0⟩, ⟨0, 0⟩⟩, ⟨0, 0, 0⟩, false⟩⟩
      ⟨⟨0x0A000005, 3659⟩, ⟨0, 42⟩⟩ ⟨0, 4, 0⟩
      (some ['9', '.', '8', '.', '7', '.', '6'])).2.1 (Or.inl rfl),
   (set_network_info_external
      ⟨IpAddr.v4 10 0 0 5, ⟨⟨⟨0, 0⟩, ⟨0, 0⟩⟩, ⟨0, 0, 0⟩, false⟩⟩
      ⟨⟨0x0A000005, 3659⟩, ⟨0, 42⟩⟩ ⟨0, 4, 0⟩
      (some ['9', '.', '8', '.', '7', '.', '6'])).2.2.2.1 10 0 0 5
      ['9', '.', '8', '.', '7', '.', '6'] rfl (Or.inr (by decide)) rfl⟩

/-! ## Claim C5 -/

/-- Claim C5 fails on the code: with every group stored at the minimum
5000 and a decay delta of 6000 (for example decay 0.5 after 120 days),
the unchecked `u16` subtraction wraps to 64536 and the subsequent `max`
keeps the wrapped value, where the claimed formula
`max(stored - delta, 5000)` yields 5000 (a debug build panics on the
same input instead of wrapping). -/
theorem gaw_decay_wraps :
    (GalaxyAtWarInterface.apply_decay true 6000 ⟨5000, 5000, 5000, 5000, 5000⟩).group_a =
      64536 ∧
    GalaxyAtWarInterface.spec_decay_value 5000 6000 = 5000 ∧
    (64536 : Nat) ≠ 5000 := by
  refine ⟨by decide, by decide, by decide⟩

/-! ## Claim C1 -/

/-- Claim C1 fails on the code: against a full game, the queue
`[entry that does not match, entry that matches]` first moves the
non-matching entry to the local `unmatched` list, then observes `Full`
for the second entry and returns early — pushing only the second entry
back and discarding `unmatched`, so the non-matching entry vanishes
from the queue instead of being preserved in order. -/
theorem update_queue_drops_unmatched :
    (Games.update_queue fullGameExample [queueEntryNoMatch, queueEntryMatch]).1 =
      [queueEntryMatch] ∧
    queueEntryNoMatch ∉
      (Games.update_queue fullGameExample [queueEntryNoMatch, queueEntryMatch]).1 := by
  refine ⟨by decide, by decide⟩

/-! ## Claim C2 -/

theorem findIdx?_lt_length {α : Type} (p : α → Bool) :
    ∀ (l : List α) (i : Nat), List.findIdx? p l = some i → i < l.length := by
  intro l
  induction l with
  | nil =>
    intro i h
    simp [List.findIdx?] at h
  | cons x xs ih =>
    intro i h
    rw [List.findIdx?_cons] at h
    by_cases hp : p x
    · simp [hp] at h
      simp only [List.length_cons]
      omega
    · simp [hp] at h
      obtain ⟨j, hj, hji⟩ := h
      have := ih j hj
      simp only [List.length_cons]
      omega

theorem find_remove_target_lt_length (players : List GamePlayer) (ty : RemovePlayerType)
    (index : Nat) (reason : RemoveReason)
    (h : Game.find_remove_target players ty = (some index, reason)) :
    index < players.length := by
  cases ty <;> simp [Game.find_remove_target] at h <;>
    exact findIdx?_lt_length _ _ _ h.1

theorem replace_player_state_length :
    ∀ (l : List GamePlayer) (sid : Nat) (st : PlayerState) (l2 : List GamePlayer) (pid : Nat),
      Game.replace_player_state l sid st = some (l2, pid) → l2.length = l.length := by
  intro l
  induction l with
  | nil =>
    intro sid st l2 pid h
    simp [Game.replace_player_state] at h
  | cons p rest ih =>
    intro sid st l2 pid h
    rw [Game.replace_player_state] at h
    by_cases hp : p.session_id == sid
    · rw [if_pos hp] at h
      simp only [Option.some.injEq, Prod.mk.injEq] at h
      obtain ⟨h1, _⟩ := h
      rw [← h1]
      rfl
    · rw [if_neg hp] at h
      rcases hr : Game.replace_player_state rest sid st with _ | ⟨rest2, pid2⟩
      · rw [hr] at h
        simp at h
      · rw [hr] at h
        simp only [Option.some.injEq, Prod.mk.injEq] at h
        obtain ⟨h1, _⟩ := h
        rw [← h1]
        simp only [List.length_cons]
        rw [ih sid st rest2 pid2 hr]

theorem try_migrate_host_frame (g : Game) :
    (g.try_migrate_host).1.players = g.players ∧
      (g.try_migrate_host).1.next_slot = g.next_slot := by
  rcases hh : g.players.head? with _ | host <;>
    simp [Game.try_migrate_host, hh, Game.set_state]

/-- Counterexample to claim C2: a full game (four players, `next_slot =
4`) satisfies the claimed invariant, but processing one more `AddPlayer`
action — which `Game::add_player` accepts without any capacity check —
drives `next_slot` to 5, violating `next_slot ≤ 4`. -/
theorem next_slot_invariant_cex :
    (fullGameExample.next_slot = fullGameExample.players.length ∧
      fullGameExample.next_slot ≤ 4) ∧
    ¬((fullGameExample.handle_action
        (GameModifyAction.addPlayer ⟨5, 105, 0, PlayerState.connecting⟩)).1.next_slot ≤ 4) := by
  refine ⟨by decide, by decide⟩

/-- Claim C2 as amended: every `GameModifyAction` preserves `next_slot ==
len(players)` (and `0 ≤ next_slot` holds trivially); `next_slot ≤ 4` is
preserved by every action other than `AddPlayer`, and by `AddPlayer`
exactly when the game was not already full (`next_slot < 4`), the only
situation in which the manager sends it after a `Joinable` check. -/
theorem game_action_slot_invariant :
    ∀ (g : Game) (a : GameModifyAction),
      g.next_slot = g.players.length →
      ((g.handle_action a).1.next_slot = (g.handle_action a).1.players.length ∧
       (g.next_slot ≤ 4 → (∀ p, a ≠ GameModifyAction.addPlayer p) →
         (g.handle_action a).1.next_slot ≤ 4) ∧
       (g.next_slot < 4 → (g.handle_action a).1.next_slot ≤ 4)) := by
  intro g a h
  cases a with
  | addPlayer p =>
    refine ⟨?_, ?_, ?_⟩
    · simp [Game.handle_action, Game.add_player, h]
    · intro _ hno
      exact absurd rfl (hno p)
    · intro hlt
      simp only [Game.handle_action, Game.add_player]
      omega
  | setState s =>
    simp only [Game.handle_action, Game.set_state]
    exact ⟨h, fun h4 _ => h4, fun hlt => Nat.le_of_lt hlt⟩
  | setSetting v =>
    simp only [Game.handle_action, Game.set_setting]
    exact ⟨h, fun h4 _ => h4, fun hlt => Nat.le_of_lt hlt⟩
  | setAttributes attrs =>
    simp only [Game.handle_action, Game.set_attributes]
    exact ⟨h, fun h4 _ => h4, fun hlt => Nat.le_of_lt hlt⟩
  | checkJoinable rules =>
    exact ⟨h, fun h4 _ => h4, fun hlt => Nat.le_of_lt hlt⟩
  | snapshot =>
    exact ⟨h, fun h4 _ => h4, fun hlt => Nat.le_of_lt hlt⟩
  | updateMeshConnection sid tgt st =>
    have hframe : (g.update_mesh_connection sid tgt st).1.next_slot = g.next_slot ∧
        (g.update_mesh_connection sid tgt st).1.players.length = g.players.length := by
      cases st with
      | disconnected => exact ⟨rfl, rfl⟩
      | connected => exact ⟨rfl, rfl⟩
      | connecting =>
        rw [Game.update_mesh_connection]
        by_cases hc : List.any g.players (fun v => v.session_id == sid)
            && List.any g.players (fun v => v.player_id == tgt)
        · rw [if_pos hc]
          rcases hr : Game.replace_player_state g.players sid PlayerState.connected
            with _ | ⟨players2, pid2⟩
          · simp [Game.set_player_state, hr]
          · simp [Game.set_player_state, hr, replace_player_state_length _ _ _ _ _ hr]
        · rw [if_neg hc]
          exact ⟨rfl, rfl⟩
    have h1 := hframe.1
    have h2 := hframe.2
    simp only [Game.handle_action]
    refine ⟨by rw [h1, h2, h], fun h4 _ => by rw [h1]; exact h4, fun hlt => by rw [h1]; omega⟩
  | removePlayer ty =>
    have hkey : ((g.remove_player ty).1.next_slot = g.next_slot ∧
          (g.remove_player ty).1.players.length = g.players.length) ∨
        ((g.remove_player ty).1.next_slot = g.next_slot - 1 ∧
          (g.remove_player ty).1.players.length = g.players.length - 1 ∧
          1 ≤ g.players.length) := by
      rw [Game.remove_player]
      by_cases he : g.players.isEmpty
      · rw [if_pos he]
        exact Or.inl ⟨rfl, rfl⟩
      · rw [if_neg he]
        rcases hft : Game.find_remove_target g.players ty with ⟨oidx, reason⟩
        rcases oidx with _ | index
        · exact Or.inl ⟨rfl, rfl⟩
        · right
          have hlt := find_remove_target_lt_length g.players ty index reason hft
          have hlen : (g.players.eraseIdx index).length = g.players.length - 1 := by
            rw [List.length_eraseIdx]
            simp [hlt]
          by_cases hz : index == 0
          · simp only [hz, if_true]
            have hmig := try_migrate_host_frame
              { g with players := g.players.eraseIdx index }
            refine ⟨by simp [hmig.2], by simp [hmig.1, hlen], by omega⟩
          · simp only [hz, if_false]
            exact ⟨rfl, by simp [hlen], by omega⟩
    simp only [Game.handle_action]
    rcases hkey with ⟨h1, h2⟩ | ⟨h1, h2, h3⟩
    · exact ⟨by rw [h1, h2, h], fun h4 _ => by rw [h1]; exact h4, fun hlt => by rw [h1]; omega⟩
    · exact ⟨by rw [h1, h2, h], fun h4 _ => by rw [h1]; omega, fun hlt => by rw [h1]; omega⟩

/-- Witness for claim C2 (amended): the slot/length tracking at a
concrete two-player game processing a `SetState` action. -/
theorem game_action_slot_invariant_witness :
    ((twoPlayerGameExample.handle_action
        (GameModifyAction.setState GameState.init)).1.next_slot =
      (twoPlayerGameExample.handle_action
        (GameModifyAction.setState GameState.init)).1.players.length ∧
     (twoPlayerGameExample.next_slot ≤ 4 →
       (∀ p, GameModifyAction.setState GameState.init ≠ GameModifyAction.addPlayer p) →
       (twoPlayerGameExample.handle_action
         (GameModifyAction.setState GameState.init)).1.next_slot ≤ 4) ∧
     (twoPlayerGameExample.next_slot < 4 →
       (twoPlayerGameExample.handle_action
         (GameModifyAction.setState GameState.init)).1.next_slot ≤ 4)) :=
  game_action_slot_invariant twoPlayerGameExample
    (GameModifyAction.setState GameState.init) (by decide)

/-! ## Claim C3 -/

theorem remove_player_head (g : Game) (ty : RemovePlayerType) (p q : GamePlayer)
    (rest : List GamePlayer) (reason : RemoveReason)
    (hps : g.players = p :: q :: rest)
    (hft : Game.find_remove_target (p :: q :: rest) ty = (some 0, reason)) :
    g.remove_player ty =
      ({ g with
          players := q :: rest,
          state := GameState.inGame,
          next_slot := g.next_slot - 1 },
       [GameEvent.setGameMsg p.session_id none,
        GameEvent.playerRemoved g.id p.player_id reason,
        GameEvent.fetchExtendedData p.player_id] ++
         List.map (fun other => GameEvent.fetchToLeaver p.session_id other.player_id)
           (q :: rest) ++
         [GameEvent.adminListChange g.id p.player_id q.player_id false,
          GameEvent.stateChange g.id GameState.hostMigration,
          GameEvent.hostMigrationStart g.id q.player_id,
          GameEvent.stateChange g.id GameState.inGame,
          GameEvent.hostMigrationFinished g.id] ++
         Game.update_clients
           { g with
              players := q :: rest,
              state := GameState.inGame } q,
       false) := by
  simp [Game.remove_player, hps, hft, Game.try_migrate_host, Game.set_state,
    Game.notify_fetch_data, Game.modify_admin_list]

/-- Claim C3: removing the player in slot 0 of a game that still has
players broadcasts exactly one `HostMigrationStart` naming the player now
at index 0 and then exactly one `HostMigrationFinished`, in that order,
with the game state written to `HostMigration` immediately before the
start broadcast and to `InGame` immediately before the finished
broadcast (each `stateChange` event records the completed write). -/
theorem host_migration_sequence :
    ∀ (g : Game) (ty : RemovePlayerType) (p q : GamePlayer) (rest : List GamePlayer),
      g.players = p :: q :: rest →
      (Game.find_remove_target g.players ty).1 = some 0 →
      ∃ pre post,
        (g.remove_player ty).2.1 =
          pre ++
            GameEvent.stateChange g.id GameState.hostMigration ::
            GameEvent.hostMigrationStart g.id q.player_id ::
            GameEvent.stateChange g.id GameState.inGame ::
            GameEvent.hostMigrationFinished g.id :: post ∧
        (∀ e ∈ pre, is_migration_start_event e = false ∧
          is_migration_finished_event e = false ∧ is_state_change_event e = false) ∧
        (∀ e ∈ post, is_migration_start_event e = false ∧
          is_migration_finished_event e = false ∧ is_state_change_event e = false) ∧
        List.countP is_migration_start_event (g.remove_player ty).2.1 = 1 ∧
        List.countP is_migration_finished_event (g.remove_player ty).2.1 = 1 ∧
        (g.remove_player ty).1.state = GameState.inGame ∧
        (g.remove_player ty).1.players = q :: rest := by
  intro g ty p q rest hps hft0
  rcases hftfull : Game.find_remove_target g.players ty with ⟨oidx, reason⟩
  have hoidx : oidx = some 0 := by rw [hftfull] at hft0; exact hft0
  subst hoidx
  rw [hps] at hftfull
  have hrp := remove_player_head g ty p q rest reason hps hftfull
  rw [hrp]
  have hpostmem : ∀ e ∈ Game.update_clients
      { g with
        players := q :: rest,
        state := GameState.inGame } q,
      is_migration_start_event e = false ∧
        is_migration_finished_event e = false ∧ is_state_change_event e = false := by
    intro e he
    simp only [Game.update_clients, List.mem_flatMap, List.mem_cons,
      List.not_mem_nil, or_false] at he
    rcases he with ⟨x, _, rfl | rfl⟩ <;> exact ⟨rfl, rfl, rfl⟩
  refine ⟨[GameEvent.setGameMsg p.session_id none,
      GameEvent.playerRemoved g.id p.player_id reason,
      GameEvent.fetchExtendedData p.player_id] ++
        List.map (fun other => GameEvent.fetchToLeaver p.session_id other.player_id)
          (q :: rest) ++
        [GameEvent.adminListChange g.id p.player_id q.player_id false],
    Game.update_clients
      { g with
        players := q :: rest,
        state := GameState.inGame } q,
    ?_, ?_, ?_, ?_, ?_, ?_, ?_⟩
  · simp
  · intro e he
    simp only [List.mem_append, List.mem_cons, List.mem_map,
      List.not_mem_nil, or_false] at he
    rcases he with ((rfl | rfl | rfl) | ⟨x, _, rfl⟩) | rfl <;> exact ⟨rfl, rfl, rfl⟩
  · exact hpostmem
  · have hflat : List.countP is_migration_start_event
        (Game.update_clients
          { g with
            players := q :: rest,
            state := GameState.inGame } q) = 0 := by
      rw [List.countP_eq_zero]
      intro e he
      simp [(hpostmem e he).1]
    have hmap : List.countP is_migration_start_event
        (List.map (fun other => GameEvent.fetchToLeaver p.session_id other.player_id)
          (q :: rest)) = 0 := by
      rw [List.countP_eq_zero]
      intro e he
      simp only [List.mem_map] at he
      rcases he with ⟨x, _, rfl⟩
      simp [is_migration_start_event]
    simp [List.countP_append, List.countP_cons, hflat, hmap,
      is_migration_start_event]
  · have hflat : List.countP is_migration_finished_event
        (Game.update_clients
          { g with
            players := q :: rest,
            state := GameState.inGame } q) = 0 := by
      rw [List.countP_eq_zero]
      intro e he
      simp [(hpostmem e he).2.1]
    have hmap : List.countP is_migration_finished_event
        (List.map (fun other => GameEvent.fetchToLeaver p.session_id other.player_id)
          (q :: rest)) = 0 := by
      rw [List.countP_eq_zero]
      intro e he
      simp only [List.mem_map] at he
      rcases he with ⟨x, _, rfl⟩
      simp [is_migration_finished_event]
    simp [List.countP_append, List.countP_cons, hflat, hmap,
      is_migration_finished_event]
  · rfl
  · rfl

/-- Witness for claim C3: removing the host (session 1) from the concrete
two-player game. -/
theorem host_migration_sequence_witness :
    ∃ pre post,
      (twoPlayerGameExample.remove_player (RemovePlayerType.session 1)).2.1 =
        pre ++
          GameEvent.stateChange twoPlayerGameExample.id GameState.hostMigration ::
          GameEvent.hostMigrationStart twoPlayerGameExample.id 102 ::
          GameEvent.stateChange twoPlayerGameExample.id GameState.inGame ::
          GameEvent.hostMigrationFinished twoPlayerGameExample.id :: post ∧
      (∀ e ∈ pre, is_migration_start_event e = false ∧
        is_migration_finished_event e = false ∧ is_state_change_event e = false) ∧
      (∀ e ∈ post, is_migration_start_event e = false ∧
        is_migration_finished_event e = false ∧ is_state_change_event e = false) ∧
      List.countP is_migration_start_event
        (twoPlayerGameExample.remove_player (RemovePlayerType.session 1)).2.1 = 1 ∧
      List.countP is_migration_finished_event
        (twoPlayerGameExample.remove_player (RemovePlayerType.session 1)).2.1 = 1 ∧
      (twoPlayerGameExample.remove_player (RemovePlayerType.session 1)).1.state =
        GameState.inGame ∧
      (twoPlayerGameExample.remove_player (RemovePlayerType.session 1)).1.players =
        ⟨2, 102, 7, PlayerState.connected⟩ :: [] :=
  host_migration_sequence twoPlayerGameExample (RemovePlayerType.session 1)
    ⟨1, 101, 7, PlayerState.connected⟩ ⟨2, 102, 7, PlayerState.connected⟩ []
    (by decide) (by decide)
